import Mathlib

/-!
Shallow embedding of the EuropTry IRC bot's analysis-and-engagement pipeline
(`src/EuropTry.py`) and proofs about it.

The embedding covers:
* string scanning helpers used by `_analyze_username` (substring containment as
  in Python's `in`, `str.lower`, `str.capitalize`, `str.lstrip`);
* profile derivation (`_analyze_username`), attribute merging (`_analyze_user`),
  targeting (`_matches_targeting_criteria`), engagement (`_initiate_conversation`);
* the profile store (`users` table keyed by username, `get_user_profile` /
  `INSERT OR REPLACE` write) and the write serializer (`DatabaseManager`);
* the protocol-event side: `on_namreply` / `on_join` in-flight bookkeeping with
  the bounded analysis queue, and the analysis worker's release of the in-flight
  marker.

Python truthiness tests (`if not user_profile.age`, `if user_profile.age:`) are
modelled exactly: an `Option Int` is truthy when it is `some a` with `a ≠ 0`,
an `Option String` when it is `some s` with `s ≠ ""`.
-/

namespace EuropTry

/-! ## String helpers (Python `in`, `lower`, `capitalize`, `lstrip`) -/

/-- `listStartsWith needle hay`: `needle` is a prefix of `hay` (over char lists). -/
def listStartsWith : List Char → List Char → Bool
  | [], _ => true
  | _ :: _, [] => false
  | a :: as, b :: bs => a == b && listStartsWith as bs

/-- `listContainsSub needle hay`: `needle` occurs contiguously in `hay`
(the semantics of Python's `needle in hay` on strings; the empty needle
always matches). -/
def listContainsSub (needle : List Char) : List Char → Bool
  | [] => listStartsWith needle []
  | c :: t => listStartsWith needle (c :: t) || listContainsSub needle t

/-- Python `needle in hay` on strings. -/
def strContains (hay needle : String) : Bool :=
  listContainsSub needle.toList hay.toList

/-- ASCII lower-casing of one character, as Python `str.lower` does on the
ASCII identifiers this program handles. -/
def lowerChar (c : Char) : Char :=
  if 65 ≤ c.toNat ∧ c.toNat ≤ 90 then Char.ofNat (c.toNat + 32) else c

/-- ASCII upper-casing of one character. -/
def upperChar (c : Char) : Char :=
  if 97 ≤ c.toNat ∧ c.toNat ≤ 122 then Char.ofNat (c.toNat - 32) else c

/-- Python `s.lower()`. -/
def lowerStr (s : String) : String :=
  String.mk (s.toList.map lowerChar)

/-- Python `s.capitalize()`: first character upper-cased, the rest lower-cased. -/
def capitalizeStr (s : String) : String :=
  match s.toList with
  | [] => ""
  | c :: rest => String.mk (upperChar c :: rest.map lowerChar)

/-- The role-prefix characters stripped from NAMES entries:
`name.lstrip('@+%&~')`. -/
def rolePrefixChars : List Char := ['@', '+', '%', '&', '~']

/-- Python `name.lstrip('@+%&~')`: drop every leading role-prefix character. -/
def cleanName (n : String) : String :=
  String.mk (n.toList.dropWhile (fun c => c ∈ rolePrefixChars))

/-- `natRange s n = [s, s+1, ..., s+n-1]`, the embedding of Python
`range(s, s+n)` iterated in increasing order. -/
def natRange (s : Nat) : Nat → List Nat
  | 0 => []
  | n + 1 => s :: natRange (s + 1) n

/-! ## Data model -/

/-- `UserProfile` dataclass of `EuropTry.py` (the unused `whois_info` blob is
kept as an optional opaque string). -/
structure UserProfile where
  username : String
  age : Option Int := none
  gender : Option String := none
  city : Option String := none
  last_seen : Option Nat := none
  conversation_count : Nat := 0
  targeted : Bool := false
  whois_info : Option String := none
deriving DecidableEq, Repr

/-- The `target_criteria` dict of a `BotProfile`; `.get` defaults are 18, 99
and `"Tous"` as in `_matches_targeting_criteria`. -/
structure TargetCriteria where
  age_min : Option Int := none
  age_max : Option Int := none
  gender : Option String := none
deriving DecidableEq, Repr

/-- `BotProfile` dataclass. -/
structure BotProfile where
  name : String
  age : Int
  gender : String
  city : String
  role : String
  nickname : String
  target_criteria : TargetCriteria
deriving DecidableEq, Repr

/-- Python truthiness of an optional int (`None` and `0` are falsy). -/
def truthyOptInt : Option Int → Bool
  | none => false
  | some a => decide (a ≠ 0)

/-- Python truthiness of an optional string (`None` and `""` are falsy). -/
def truthyOptStr : Option String → Bool
  | none => false
  | some s => decide (s ≠ "")

/-! ## Profile derivation (`_analyze_username`) -/

/-- The `result` dict produced by `_analyze_username`. -/
structure AnalyzedInfo where
  gender : Option String := none
  age : Option Int := none
  city : Option String := none
deriving DecidableEq, Repr

def maleIndicators : List String :=
  ["alex", "max", "tom", "ben", "sam", "mike", "dave", "john",
   "paul", "marc", "pierre", "jean"]

def femaleIndicators : List String :=
  ["anna", "lisa", "emma", "sara", "julie", "marie", "chloe", "lea",
   "nina", "eva", "sophie", "claire"]

def cityNames : List String :=
  ["paris", "lyon", "marseille", "toulouse", "nice", "nantes",
   "strasbourg", "bordeaux", "lille", "rennes"]

/-- Gender detection: male indicators scanned first; female indicators only
when no male indicator matched (both over the lower-cased handle). -/
def genderScan (username : String) : Option String :=
  match maleIndicators.find? (fun ind => strContains (lowerStr username) ind) with
  | some _ => some "Homme"
  | none =>
    match femaleIndicators.find? (fun ind => strContains (lowerStr username) ind) with
    | some _ => some "Femme"
    | none => none

/-- Birth-year detection: `for year in range(1980, 2010): if str(year) in username`. -/
def yearScan (username : String) : Option Nat :=
  (natRange 1980 30).find? (fun y => strContains username (Nat.repr y))

/-- Direct-age detection: `for i in range(18, 100): if str(i) in username`. -/
def directAgeScan (username : String) : Option Nat :=
  (natRange 18 82).find? (fun i => strContains username (Nat.repr i))

/-- Age detection: birth-year scan first, direct-age scan only as fallback;
`current_year` is the value of `datetime.now().year`. -/
def ageScan (currentYear : Int) (username : String) : Option Int :=
  match yearScan username with
  | some y => some (currentYear - (y : Int))
  | none =>
    match directAgeScan username with
    | some i => some ((i : Int))
    | none => none

/-- City detection over the lower-cased handle, result capitalized. -/
def cityScan (username : String) : Option String :=
  (cityNames.find? (fun c => strContains (lowerStr username) c)).map capitalizeStr

/-- `_analyze_username`: pure derivation of partial attributes from the handle. -/
def analyzeUsername (currentYear : Int) (username : String) : AnalyzedInfo :=
  { gender := genderScan username
    age := ageScan currentYear username
    city := cityScan username }

/-! ## Merge and targeting (`_analyze_user`, `_matches_targeting_criteria`) -/

/-- The attribute-merge step of `_analyze_user`: a derived value is taken only
when the stored one is falsy (None, 0 or `""`) and the derived one is truthy.
The three assignments touch disjoint fields, so the sequential Python
statements are one record update. -/
def mergeDerived (p : UserProfile) (info : AnalyzedInfo) : UserProfile :=
  { p with
    age := if !truthyOptInt p.age && truthyOptInt info.age then info.age else p.age
    gender := if !truthyOptStr p.gender && truthyOptStr info.gender then info.gender else p.gender
    city := if !truthyOptStr p.city && truthyOptStr info.city then info.city else p.city }

/-- `_matches_targeting_criteria`: the age check runs only when the stored age
is truthy; the gender check only when the criterion is not `"Tous"` and the
stored gender is truthy. -/
def matchesTargetingCriteria (crit : TargetCriteria) (p : UserProfile) : Bool :=
  if truthyOptInt p.age &&
      !(decide (crit.age_min.getD 18 ≤ p.age.getD 0 ∧ p.age.getD 0 ≤ crit.age_max.getD 99)) then
    false
  else if crit.gender.getD "Tous" != "Tous" && truthyOptStr p.gender &&
      p.gender.getD "" != crit.gender.getD "Tous" then
    false
  else
    true

/-- Spec-side age criterion ("permissive under uncertainty", with the code's
truthiness reading of "known"): unknown or zero age never disqualifies; a
non-zero known age must be within `[age_min, age_max]`. -/
def ageCriterionOk (crit : TargetCriteria) (p : UserProfile) : Bool :=
  match p.age with
  | none => true
  | some a =>
    if a = 0 then true
    else decide (crit.age_min.getD 18 ≤ a ∧ a ≤ crit.age_max.getD 99)

/-- Spec-side gender criterion: a non-`"Tous"` criterion fails only against a
known non-empty differing gender. -/
def genderCriterionOk (crit : TargetCriteria) (p : UserProfile) : Bool :=
  if crit.gender.getD "Tous" = "Tous" then true
  else
    match p.gender with
    | none => true
    | some g => if g = "" then true else decide (g = crit.gender.getD "Tous")

/-! ## Profile store (the `users` table) -/

/-- The `users` table: rows keyed by username, newest-first. -/
abbrev Store := List (String × UserProfile)

def storeLookup : Store → String → Option UserProfile
  | [], _ => none
  | (k, p) :: t, u => if k = u then some p else storeLookup t u

/-- `get_user_profile`: never fails, returns a default profile when no row
exists. -/
def getUserProfile (st : Store) (u : String) : UserProfile :=
  (storeLookup st u).getD { username := u }

/-- `INSERT OR REPLACE INTO users`: at most one live row per username. -/
def storeSave (st : Store) (p : UserProfile) : Store :=
  (p.username, p) :: st.filter (fun kv => kv.1 ≠ p.username)

/-- Well-formedness of the table: each row is stored under its own username
(guaranteed by the `username TEXT PRIMARY KEY` column being the dataclass
field). -/
def storeWF (st : Store) : Prop := ∀ kv ∈ st, kv.1 = kv.2.username

/-! ## Engagement (`_initiate_conversation`) and analysis (`_analyze_user`) -/

/-- The candidate opening messages: a fixed base set plus additive
personalization when city / age (18–25, truthy) are known. -/
def openingMessages (username : String) (p : UserProfile) : List String :=
  let base :=
    ["Salut " ++ username ++ " ! Comment ça va ?",
     "Hello " ++ username ++ " ! Tu es souvent sur ce salon ?",
     "Coucou " ++ username ++ " ! Belle journée n'est-ce pas ?",
     "Salut " ++ username ++ " ! Tu fais quoi de beau ?"]
  let base :=
    if truthyOptStr p.city then
      base ++ ["Salut " ++ username ++ " ! Tu es de " ++ p.city.getD "" ++ " aussi ?"]
    else base
  if truthyOptInt p.age && decide (18 ≤ p.age.getD 0 ∧ p.age.getD 0 ≤ 25) then
    base ++ ["Hey " ++ username ++ " ! Tu es étudiant ?"]
  else base

/-- One analysis cycle's environment: whether the IRC connection is up when
engagement is attempted, the `datetime.now()` reading for `last_seen`, and the
`random.choice` draw for the opening message. -/
structure AnalysisCycle where
  connected : Bool
  time : Nat
  choice : Nat
deriving DecidableEq, Repr

/-- `_initiate_conversation`: no-op when disconnected; otherwise pick an
opening line, send it, increment the conversation counter and persist the
profile. Returns the sent message (`none` when nothing was sent). -/
def initiateConversation (st : Store) (username : String) (p : UserProfile)
    (connected : Bool) (choice : Nat) : Store × Option String :=
  if !connected then (st, none)
  else
    let msgs := openingMessages username p
    let message := msgs.getD (choice % msgs.length) ""
    let p2 := { p with conversation_count := p.conversation_count + 1 }
    (storeSave st p2, some message)

/-- The profile as updated by `_analyze_user` before persisting: the stored
profile with `last_seen` refreshed, derived attributes merged in (stored
truthy values win) and the targeted flag re-evaluated. -/
def analyzedProfile (crit : TargetCriteria) (currentYear : Int) (c : AnalysisCycle)
    (st : Store) (username : String) : UserProfile :=
  let p1 := { getUserProfile st username with last_seen := some c.time }
  let p2 := mergeDerived p1 (analyzeUsername currentYear username)
  { p2 with targeted := matchesTargetingCriteria crit p2 }

/-- `_analyze_user` for one handle, run sequentially (per-handle analyses are
serialized by the in-flight exclusivity rule, and the serializer applies a
submitted write before the next cycle's read per the store's read-after-write
sequencing): read the profile, refresh `last_seen`, merge derived attributes,
evaluate targeting, persist, and — when targeted with a zero conversation
counter — initiate a conversation. Returns the store and whether an engagement
message was actually sent. -/
def analyzeUser (crit : TargetCriteria) (currentYear : Int) (c : AnalysisCycle)
    (st : Store) (username : String) : Store × Bool :=
  let p3 := analyzedProfile crit currentYear c st username
  let st1 := storeSave st p3
  if p3.targeted && p3.conversation_count == 0 then
    let r := initiateConversation st1 username p3 c.connected c.choice
    (r.1, r.2.isSome)
  else (st1, false)

/-- A sequence of analysis cycles for the same handle; returns the final store
and how many cycles actually sent an engagement message. -/
def runCycles (crit : TargetCriteria) (currentYear : Int) (username : String)
    (st : Store) : List AnalysisCycle → Store × Nat
  | [] => (st, 0)
  | c :: rest =>
    let r := analyzeUser crit currentYear c st username
    let rr := runCycles crit currentYear username r.1 rest
    (rr.1, (if r.2 then 1 else 0) + rr.2)

/-! ## In-flight set and analysis queue (`on_namreply`, `on_join`, worker) -/

/-- `analysis_queue = queue.Queue(maxsize=50)`. -/
def queueMax : Nat := 50

/-- Shared pipeline state: the `users_being_analyzed` set, the pending
`analysis_queue` contents, plus two histories used to state properties — every
handle ever enqueued and every analysis ever finished. -/
structure BotState where
  inflight : List String
  tasks : List String
  enqueuedLog : List String
  completedLog : List String
deriving DecidableEq, Repr

def initBotState : BotState := ⟨[], [], [], []⟩

/-- `set.add` (the caller has already checked non-membership, but the guard
keeps set semantics). -/
def inflightAdd (s : List String) (u : String) : List String :=
  if u ∈ s then s else u :: s

/-- `set.discard`: remove if present. -/
def removeFirst : List String → String → List String
  | [], _ => []
  | a :: t, u => if a = u then t else a :: removeFirst t u

/-- Processing one observed nick (the body of `on_join`, and of one
`on_namreply` iteration after cleaning): skip the bot itself and in-flight
handles; otherwise add to the in-flight set, then try a non-blocking put on the
analysis queue — on `queue.Full` only a warning is logged, the handle stays in
the in-flight set and no task is enqueued. -/
def observeNick (botNick : String) (st : BotState) (nick : String) : BotState :=
  if nick = botNick then st
  else if nick ∈ st.inflight then st
  else if st.tasks.length < queueMax then
    { st with inflight := inflightAdd st.inflight nick,
              tasks := st.tasks ++ [nick],
              enqueuedLog := st.enqueuedLog ++ [nick] }
  else { st with inflight := inflightAdd st.inflight nick }

/-- The `on_namreply` loop over (at most 20) raw NAMES entries: each entry is
role-prefix-stripped and observed; a `queue.Full` (the observed name was new
but the queue had no room) aborts the loop (`break`). -/
def namreplyLoop (botNick : String) (st : BotState) : List String → BotState
  | [] => st
  | n :: rest =>
    if cleanName n ≠ botNick ∧ cleanName n ∉ st.inflight ∧ ¬ st.tasks.length < queueMax then
      observeNick botNick st (cleanName n)
    else
      namreplyLoop botNick (observeNick botNick st (cleanName n)) rest

/-- `on_namreply`: only the first 20 names of the burst are processed. -/
def onNamreply (botNick : String) (st : BotState) (names : List String) : BotState :=
  namreplyLoop botNick st (names.take 20)

/-- `on_join` for one nick. -/
def onJoin (botNick : String) (st : BotState) (nick : String) : BotState :=
  observeNick botNick st nick

/-- One worker round trip: dequeue the oldest task, run `_analyze_user`
(outcome `ok` irrelevant here: the `finally` clause discards the handle from
the in-flight set regardless), record completion. -/
def workerStep (st : BotState) (_ok : Bool) : BotState :=
  match st.tasks with
  | [] => st
  | t :: rest =>
    { st with
      tasks := rest
      inflight := removeFirst st.inflight t
      completedLog := st.completedLog ++ [t]
      enqueuedLog := st.enqueuedLog }

/-- The protocol / worker events that touch the in-flight set. Event handlers
run serialized on the single IRC reactor thread; worker rounds interleave
between them. -/
inductive BotEvent where
  | namreply (names : List String)
  | join (nick : String)
  | worker (ok : Bool)
deriving DecidableEq, Repr

def stepEvent (botNick : String) (st : BotState) : BotEvent → BotState
  | BotEvent.namreply names => onNamreply botNick st names
  | BotEvent.join nick => onJoin botNick st nick
  | BotEvent.worker ok => workerStep st ok

def runEvents (botNick : String) (st : BotState) : List BotEvent → BotState
  | [] => st
  | e :: rest => runEvents botNick (stepEvent botNick st e) rest

/-- Occurrences of a handle in a history list. -/
def countOccur (u : String) : List String → Nat
  | [] => 0
  | a :: t => (if a = u then 1 else 0) + countOccur u t

/-! ## Write serializer (`DatabaseManager`) -/

/-- One row of the append-only `conversations` table. -/
structure ConvRow where
  username : String
  message : String
  timestamp : Nat
  bot_response : String
  prompt_used : String
  sentiment : Int
deriving DecidableEq, Repr

/-- A write intent queued on `write_queue`: the `('save_user', data)` /
`('save_conversation', data)` tuples. -/
inductive WriteOp where
  | saveUser (p : UserProfile) (createdAt : Nat)
  | saveConversation (r : ConvRow)
deriving DecidableEq, Repr

/-- The durable store: the `users` and `conversations` tables. -/
structure DBState where
  users : Store
  conversations : List ConvRow
deriving DecidableEq, Repr

/-- `_execute_write_operation`: `INSERT OR REPLACE` for a user row, plain
`INSERT` (append) for a conversation row. -/
def executeWriteOperation (db : DBState) : WriteOp → DBState
  | WriteOp.saveUser p _ => { db with users := storeSave db.users p }
  | WriteOp.saveConversation r => { db with conversations := db.conversations ++ [r] }

/-- `_database_writer`: the single writer thread draining the queue front to
back, applying each intent before taking the next. -/
def databaseWriter (db : DBState) : List WriteOp → DBState
  | [] => db
  | op :: rest => databaseWriter (executeWriteOperation db op) rest

/-- Spec-side comparator for the serializer: a sequential replay of the
intents in submission order. -/
def sequentialReplay (db : DBState) (ops : List WriteOp) : DBState :=
  ops.foldl executeWriteOperation db

/-- The conversation rows contained in a list of intents, in order. -/
def convRowsOf (ops : List WriteOp) : List ConvRow :=
  ops.filterMap (fun op =>
    match op with
    | WriteOp.saveConversation r => some r
    | _ => none)

/-- Result of a queue `put`. -/
inductive PutResult where
  | ok
  | full
deriving DecidableEq, Repr

/-- `queue.Queue` put: with a capacity, it fails (`queue.Full`) exactly when
the queue is saturated and the intent is then dropped; without one it always
appends. -/
def queuePut (capacity : Option Nat) (q : List WriteOp) (op : WriteOp) :
    List WriteOp × PutResult :=
  match capacity with
  | none => (q ++ [op], PutResult.ok)
  | some cap =>
    if q.length < cap then (q ++ [op], PutResult.ok) else (q, PutResult.full)

/-- `self.write_queue = queue.Queue()` — constructed without `maxsize`,
i.e. unbounded. -/
def dbWriteQueueCapacity : Option Nat := none

/-- `submit` to the write serializer. -/
def submitWrite (q : List WriteOp) (op : WriteOp) : List WriteOp × PutResult :=
  queuePut dbWriteQueueCapacity q op

/-- The intent built by `save_user_profile` (`last_seen or now`, plus a fresh
`created_at`). -/
def saveUserProfileIntent (p : UserProfile) (now : Nat) : WriteOp :=
  WriteOp.saveUser { p with last_seen := some (p.last_seen.getD now) } now

/-- `save_user_profile`: build the row and enqueue it, returning immediately. -/
def saveUserProfileSubmit (q : List WriteOp) (p : UserProfile) (now : Nat) :
    List WriteOp × PutResult :=
  submitWrite q (saveUserProfileIntent p now)

/-- The intent built by `save_conversation`. -/
def saveConversationIntent (username message : String) (now : Nat)
    (botResponse promptUsed : String) (sentiment : Int) : WriteOp :=
  WriteOp.saveConversation ⟨username, message, now, botResponse, promptUsed, sentiment⟩

/-- `save_conversation`: build the row and enqueue it, returning immediately. -/
def saveConversationSubmit (q : List WriteOp) (username message : String) (now : Nat)
    (botResponse promptUsed : String) (sentiment : Int) : List WriteOp × PutResult :=
  submitWrite q (saveConversationIntent username message now botResponse promptUsed sentiment)

/-! ## Text generation (`DeepSeekIntegration.generate_response`) -/

/-- Outcome of the HTTP call to the generation service, as discriminated by
`generate_response`: a 200 with text, the typed failures 401 / 429 / other
status code / timeout / connection error, or any other raised exception. -/
inductive ApiOutcome where
  | ok (text : String)
  | status401
  | status429
  | statusOther (code : Nat)
  | timeoutErr
  | connErr
  | otherErr
deriving DecidableEq, Repr

/-- `_get_fallback_response` candidate lines. -/
def fallbackResponses (bp : BotProfile) : List String :=
  ["Salut ! Comment ça va ? Je suis " ++ bp.name ++ " de " ++ bp.city ++ " 😊",
   "C'est intéressant ce que tu dis ! Raconte-moi en plus ?",
   "Ah oui, je vois ! Moi aussi j'ai vécu ça récemment.",
   "En tant que " ++ bp.role ++ ", je peux te dire que...",
   "Haha, c'est marrant ! Tu as l'air sympa 😄"]

/-- `_get_fallback_response` with the `random.choice` draw made explicit. -/
def getFallbackResponse (bp : BotProfile) (k : Nat) : String :=
  "[Mode démo] " ++ (fallbackResponses bp).getD (k % (fallbackResponses bp).length) ""

/-- The demo-fallback lines as they appear on the wire. -/
def demoFallbacks (bp : BotProfile) : List String :=
  (fallbackResponses bp).map (fun r => "[Mode démo] " ++ r)

/-- `generate_response`: every branch returns a string — no exception escapes. -/
def generateResponse (apiKey : Option String) (outcome : ApiOutcome)
    (bp : BotProfile) (k : Nat) : String :=
  if !truthyOptStr apiKey then
    "⚠️ Clé API DeepSeek non configurée. Allez dans Configuration API."
  else
    match outcome with
    | ApiOutcome.ok text => text.trim
    | ApiOutcome.status401 => "❌ Clé API invalide. Vérifiez votre configuration."
    | ApiOutcome.status429 => "⏳ Limite de taux atteinte. Attendez un moment."
    | ApiOutcome.statusOther code => "❌ Erreur API: " ++ Nat.repr code
    | ApiOutcome.timeoutErr => "⏰ Timeout de l'API. Réessayez."
    | ApiOutcome.connErr => "🌐 Problème de connexion à l'API."
    | ApiOutcome.otherErr => getFallbackResponse bp k

/-- `_generate_intelligent_response`: passes the generated text through; its
own `except` clause maps an internal error to a fixed apology line. The result
is exactly the text `on_privmsg` sends to the user. -/
def generateIntelligentResponse (apiKey : Option String) (outcome : ApiOutcome)
    (bp : BotProfile) (k : Nat) (internalError : Bool) : String :=
  if internalError then "Désolé, j'ai eu un petit problème technique. Peux-tu répéter ?"
  else generateResponse apiKey outcome bp k

/-! ## Statement-side predicates and concrete witness inputs -/

/-- Bound relating dispatches to completions: a handle can have been enqueued
at most once more than it has completed, the excess being accounted for by
current in-flight membership. -/
def dispatchBound (u : String) (st : BotState) : Prop :=
  countOccur u st.enqueuedLog ≤
    countOccur u st.completedLog + (if u ∈ st.inflight then 1 else 0)

/-- A handle that is marked in-flight but has no pending task: nothing in the
system can ever release it. -/
def stuckInFlight (u : String) (st : BotState) : Prop :=
  u ∈ st.inflight ∧ u ∉ st.tasks

/-- Targeting criteria used in concrete witnesses: ages 18–35, any gender. -/
def witnessCrit : TargetCriteria :=
  { age_min := some 18, age_max := some 35, gender := some "Tous" }

/-- A connected analysis cycle used in concrete witnesses. -/
def witnessCycle : AnalysisCycle := { connected := true, time := 0, choice := 0 }

/-- A concrete bot profile used in concrete witnesses. -/
def bpDemo : BotProfile :=
  { name := "Alex", age := 25, gender := "Homme", city := "Paris",
    role := "Étudiant", nickname := "alex25", target_criteria := witnessCrit }

/-- Fifty distinct handles, enough to saturate the analysis queue. -/
def fullTasks : List String := (natRange 0 50).map (fun i => "u" ++ Nat.repr i)

/-- A pipeline state whose analysis queue is at capacity. -/
def stFull : BotState := ⟨fullTasks, fullTasks, fullTasks, []⟩

/-- Events run after the overflow in the C9 witness. -/
def leakEvs : List BotEvent :=
  [BotEvent.worker true, BotEvent.join "guest", BotEvent.namreply ["victim"]]

/-! ## Helper lemmas: ranges, `find?`, `getD`, histories -/

theorem mem_natRange {z s n : Nat} : z ∈ natRange s n ↔ s ≤ z ∧ z < s + n := by
  induction n generalizing s with
  | zero => simp [natRange]
  | succ n ih => simp [natRange, List.mem_cons, ih]; omega

theorem find?_natRange_some {p : Nat → Bool} {s n y : Nat}
    (h : (natRange s n).find? p = some y) :
    s ≤ y ∧ y < s + n ∧ p y = true ∧ ∀ z, s ≤ z → z < y → p z = false := by
  induction n generalizing s with
  | zero => simp [natRange] at h
  | succ n ih =>
    rw [natRange] at h
    cases hp : p s with
    | true =>
      rw [List.find?_cons_of_pos _ (by simp [hp])] at h
      obtain rfl : s = y := by simpa using h
      exact ⟨Nat.le_refl s, by omega, hp, fun z h1 h2 => absurd (Nat.lt_of_le_of_lt h1 h2) (by omega)⟩
    | false =>
      rw [List.find?_cons_of_neg _ (by simp [hp])] at h
      obtain ⟨h1, h2, h3, h4⟩ := ih h
      refine ⟨by omega, by omega, h3, fun z hz1 hz2 => ?_⟩
      rcases Nat.lt_or_ge z (s + 1) with hz | hz
      · have : z = s := by omega
        simpa [this] using hp
      · exact h4 z hz hz2

theorem find?_natRange_none {p : Nat → Bool} {s n : Nat}
    (h : (natRange s n).find? p = none) :
    ∀ z, s ≤ z → z < s + n → p z = false := by
  intro z h1 h2
  have := List.find?_eq_none.mp h z (mem_natRange.mpr ⟨h1, h2⟩)
  simpa using this

theorem getD_mem_of_lt {α : Type} : ∀ (l : List α) (n : Nat) (d : α),
    n < l.length → l.getD n d ∈ l
  | a :: t, 0, d, _ => by simp [List.getD]
  | a :: t, n + 1, d, h =>
    List.mem_cons_of_mem a (getD_mem_of_lt t n d (Nat.lt_of_succ_lt_succ h))

theorem countOccur_append (u : String) (l1 l2 : List String) :
    countOccur u (l1 ++ l2) = countOccur u l1 + countOccur u l2 := by
  induction l1 with
  | nil => simp [countOccur]
  | cons a t ih => simp [countOccur, ih]; omega

theorem mem_removeFirst_of_ne {l : List String} {u t : String} (h : u ≠ t) :
    u ∈ removeFirst l t ↔ u ∈ l := by
  induction l with
  | nil => simp [removeFirst]
  | cons a as ih =>
    unfold removeFirst
    by_cases ha : a = t
    · rw [if_pos ha]
      subst ha
      constructor
      · exact fun hm => List.mem_cons_of_mem _ hm
      · intro hm
        rcases List.mem_cons.mp hm with h1 | h1
        · exact absurd h1 h
        · exact h1
    · rw [if_neg ha]
      simp [List.mem_cons, ih]

/-! ## Profile store lemmas -/

theorem storeLookup_save_self (st : Store) (p : UserProfile) :
    storeLookup (storeSave st p) p.username = some p := by
  simp [storeSave, storeLookup]

theorem getUserProfile_save_self (st : Store) (p : UserProfile) :
    getUserProfile (storeSave st p) p.username = p := by
  simp [getUserProfile, storeLookup_save_self]

theorem getUserProfile_save_key (st : Store) (p : UserProfile) (u : String)
    (h : p.username = u) : getUserProfile (storeSave st p) u = p := by
  subst h
  exact getUserProfile_save_self st p

theorem storeWF_nil : storeWF [] := by
  intro kv h
  cases h

theorem storeWF_save {st : Store} (h : storeWF st) (p : UserProfile) :
    storeWF (storeSave st p) := by
  intro kv hkv
  rcases List.mem_cons.mp hkv with h1 | h1
  · rw [h1]
  · exact h kv (List.mem_of_mem_filter h1)

theorem storeLookup_mem {st : Store} {u : String} {p : UserProfile}
    (h : storeLookup st u = some p) : (u, p) ∈ st := by
  induction st with
  | nil => cases h
  | cons kv t ih =>
    obtain ⟨k, q⟩ := kv
    by_cases hk : k = u
    · rw [storeLookup, if_pos hk] at h
      obtain rfl : q = p := by simpa using h
      subst hk
      exact List.mem_cons_self _ _
    · rw [storeLookup, if_neg hk] at h
      exact List.mem_cons_of_mem _ (ih h)

theorem getUserProfile_username {st : Store} (h : storeWF st) (u : String) :
    (getUserProfile st u).username = u := by
  unfold getUserProfile
  cases hl : storeLookup st u with
  | none => rfl
  | some p =>
    have := h _ (storeLookup_mem hl)
    simpa using this.symm

/-! ## C3: the write serializer is a sequential replay -/

/-- C3: every intent sequence handed to the single `_database_writer` worker is
applied to the store in FIFO submission order: the final database state equals
the sequential replay of the intents in submission order, and in particular the
append-only conversation log lists exactly the submitted conversation rows in
that order. -/
theorem writerSequentialReplay (db : DBState) (ops : List WriteOp) :
    databaseWriter db ops = sequentialReplay db ops ∧
    (databaseWriter db ops).conversations = db.conversations ++ convRowsOf ops := by
  induction ops generalizing db with
  | nil => simp [databaseWriter, sequentialReplay, convRowsOf]
  | cons op rest ih =>
    have hstep : databaseWriter db (op :: rest)
        = databaseWriter (executeWriteOperation db op) rest := rfl
    constructor
    · rw [hstep, (ih (executeWriteOperation db op)).1]
      rfl
    · rw [hstep, (ih (executeWriteOperation db op)).2]
      cases op with
      | saveUser p t => simp [executeWriteOperation, convRowsOf]
      | saveConversation r => simp [executeWriteOperation, convRowsOf]

/-! ## C8: submitting a write intent is non-blocking and never fails -/

/-- C8: `save_user_profile` and `save_conversation` enqueue their intent and
return (`queue.Queue` put); the serializer's intake queue is constructed
unbounded, so submission always succeeds with the intent appended — it can only
fail (`queue.Full`, with the intent dropped and the failure signalled to the
caller by the raised exception) when a capacity is saturated, which this queue
has none of. No intent is ever lost at submission, with or without a signal. -/
theorem submitNonBlocking (q : List WriteOp) (p : UserProfile) (now : Nat) :
    saveUserProfileSubmit q p now = (q ++ [saveUserProfileIntent p now], PutResult.ok) ∧
    (∀ (username message botResponse promptUsed : String) (sentiment : Int),
      saveConversationSubmit q username message now botResponse promptUsed sentiment =
        (q ++ [saveConversationIntent username message now botResponse promptUsed sentiment],
          PutResult.ok)) ∧
    (∀ op : WriteOp,
      (submitWrite q op).2 ≠ PutResult.full ∧ (submitWrite q op).1 = q ++ [op]) ∧
    (∀ (cap : Nat) (op : WriteOp), ¬ q.length < cap →
      queuePut (some cap) q op = (q, PutResult.full)) := by
  refine ⟨rfl, fun _ _ _ _ _ => rfl, ?_, ?_⟩
  · intro op
    constructor
    · intro h
      simp [submitWrite, queuePut, dbWriteQueueCapacity] at h
    · rfl
  · intro cap op hcap
    simp [queuePut, hcap]

/-- Witness for C8 at a concrete queue and intent, including a saturated
bounded queue exhibiting the drop-with-signal branch. -/
theorem submitNonBlocking_witness :
    saveUserProfileSubmit [] { username := "alice" } 7 =
      ([saveUserProfileIntent { username := "alice" } 7], PutResult.ok) ∧
    queuePut (some 0) [] (saveUserProfileIntent { username := "alice" } 7) =
      ([], PutResult.full) := by
  have H := submitNonBlocking [] { username := "alice" } 7
  exact ⟨by rw [H.1]; rfl, H.2.2.2 0 _ (by omega)⟩

/-! ## C7: failure handling of the text-generation call -/

/-- C7 counterexample: on a timeout from the generation service the text the
response path hands to `on_privmsg` (and hence to the user-visible channel) is
the local timeout-notice string, not one of the `_get_fallback_response` demo
fallback lines — the claim that every failure is substituted by a fallback
line fails at this input. -/
theorem fallbackOnFailure_cex :
    generateIntelligentResponse (some "sk-key") ApiOutcome.timeoutErr bpDemo 0 false
      = "⏰ Timeout de l'API. Réessayez." ∧
    generateIntelligentResponse (some "sk-key") ApiOutcome.timeoutErr bpDemo 0 false
      ∉ demoFallbacks bpDemo := by
  decide

/-- C7 (amended): every failure of the generation call maps to a locally
defined string — the typed failures (401, 429, other status, timeout,
connection error) to fixed notice strings that become the user-visible text,
and only an unanticipated exception to a demo fallback line; no failure
escapes `generate_response` as an exception. -/
theorem fallbackOnFailure (apiKey : String) (h : apiKey ≠ "") (bp : BotProfile)
    (k code : Nat) :
    generateResponse (some apiKey) ApiOutcome.status401 bp k
      = "❌ Clé API invalide. Vérifiez votre configuration." ∧
    generateResponse (some apiKey) ApiOutcome.status429 bp k
      = "⏳ Limite de taux atteinte. Attendez un moment." ∧
    generateResponse (some apiKey) (ApiOutcome.statusOther code) bp k
      = "❌ Erreur API: " ++ Nat.repr code ∧
    generateResponse (some apiKey) ApiOutcome.timeoutErr bp k
      = "⏰ Timeout de l'API. Réessayez." ∧
    generateResponse (some apiKey) ApiOutcome.connErr bp k
      = "🌐 Problème de connexion à l'API." ∧
    generateResponse (some apiKey) ApiOutcome.otherErr bp k ∈ demoFallbacks bp := by
  have htr : truthyOptStr (some apiKey) = true := by simp [truthyOptStr, h]
  refine ⟨?_, ?_, ?_, ?_, ?_, ?_⟩ <;> simp only [generateResponse, htr, Bool.not_true,
    Bool.false_eq_true, if_false]
  unfold getFallbackResponse demoFallbacks
  have hk : k % (fallbackResponses bp).length < (fallbackResponses bp).length :=
    Nat.mod_lt _ (by simp [fallbackResponses])
  exact List.mem_map_of_mem _ (getD_mem_of_lt _ _ _ hk)

/-- Witness for C7 (amended) at a concrete key and profile. -/
theorem fallbackOnFailure_witness :
    generateResponse (some "sk") ApiOutcome.status401 bpDemo 0
      = "❌ Clé API invalide. Vérifiez votre configuration." ∧
    generateResponse (some "sk") ApiOutcome.otherErr bpDemo 0 ∈ demoFallbacks bpDemo := by
  have H := fallbackOnFailure "sk" (by decide) bpDemo 0 500
  exact ⟨H.1, H.2.2.2.2.2⟩

/-! ## C4: the stored-wins merge -/

/-- C4 counterexample: a stored profile with the known age `0` is falsy in
Python, so `_analyze_user` overwrites it with the derived age from a handle
containing "25" — the stored-wins invariant fails for the known age `0`. -/
theorem storedWinsMerge_cex :
    ({ username := "z", age := some 0 } : UserProfile).age = some 0 ∧
    (mergeDerived { username := "z", age := some 0 }
      (analyzeUsername 2025 "visitor25")).age = some 25 := by
  decide

/-- C4 (amended): the merge never overwrites a truthy stored attribute — a
known non-zero age, a known non-empty gender or city — with a derived one
(only `None`, `0` or `""` stored values can be replaced); in particular a
profile seeded with age 40 still has age 40 after analysing a handle
containing "25". -/
theorem storedWinsMerge :
    (∀ (p : UserProfile) (info : AnalyzedInfo),
      (truthyOptInt p.age = true → (mergeDerived p info).age = p.age) ∧
      (truthyOptStr p.gender = true → (mergeDerived p info).gender = p.gender) ∧
      (truthyOptStr p.city = true → (mergeDerived p info).city = p.city)) ∧
    (∀ currentYear : Int,
      (mergeDerived { username := "seed", age := some 40 }
        (analyzeUsername currentYear "visitor25")).age = some 40) := by
  constructor
  · intro p info
    refine ⟨?_, ?_, ?_⟩ <;> intro h <;> simp [mergeDerived, h]
  · intro currentYear
    have h : truthyOptInt (some (40 : Int)) = true := by decide
    simp [mergeDerived, h]

/-- Witness for C4 (amended) at a concrete profile and derivation result. -/
theorem storedWinsMerge_witness :
    (mergeDerived { username := "seed", age := some 40 }
      { gender := some "Homme", age := some 25 }).age = some 40 ∧
    (mergeDerived { username := "seed", age := some 40 }
      (analyzeUsername 2025 "visitor25")).age = some 40 := by
  refine ⟨?_, storedWinsMerge.2 2025⟩
  exact (storedWinsMerge.1 { username := "seed", age := some 40 }
    { gender := some "Homme", age := some 25 }).1 (by decide)

/-! ## C5: the targeting predicate -/

/-- C5 counterexample: a profile with the known age `0` — outside the
criterion range `[18, 35]` — still matches, because Python's `if
user_profile.age:` treats `0` as unknown and skips the range check; the claim
that every known out-of-range age fails the predicate is false at this
input. -/
theorem targetingPermissive_cex :
    ({ username := "z0", age := some 0 } : UserProfile).age = some 0 ∧
    ((0 : Int) <
      ({ age_min := some 18, age_max := some 35, gender := some "Tous" } :
        TargetCriteria).age_min.getD 18) ∧
    matchesTargetingCriteria { age_min := some 18, age_max := some 35, gender := some "Tous" }
      { username := "z0", age := some 0 } = true := by
  decide

/-- C5 (amended): the targeting predicate is the conjunction of an age
criterion and a gender criterion, both permissive under uncertainty with the
code's truthiness reading of "known": an unknown — or zero — age never
disqualifies, a known non-zero age must lie in `[age_min, age_max]` inclusive,
and a non-"Tous" gender criterion fails only against a known, non-empty,
differing gender. The claim's two concrete instances hold: with ages 18–35 and
any gender, an unknown-age "Homme" profile matches; with gender "Femme", a
known age 40 and unknown gender does not match. -/
theorem targetingPermissive (crit : TargetCriteria) (p : UserProfile) :
    matchesTargetingCriteria crit p = (ageCriterionOk crit p && genderCriterionOk crit p) ∧
    matchesTargetingCriteria { age_min := some 18, age_max := some 35, gender := some "Tous" }
      { username := "u1", gender := some "Homme" } = true ∧
    matchesTargetingCriteria { age_min := some 18, age_max := some 35, gender := some "Femme" }
      { username := "u2", age := some 40 } = false := by
  refine ⟨?_, by decide, by decide⟩
  obtain ⟨un, a, g, ci, ls, cc, tg, wi⟩ := p
  rcases a with _ | a <;> rcases g with _ | g <;>
    simp only [matchesTargetingCriteria, ageCriterionOk, genderCriterionOk,
      truthyOptInt, truthyOptStr, Option.getD_some, Option.getD_none] <;>
    split_ifs <;> simp_all <;> omega

/-! ## C6: derivation determinism and scan order -/

/-- C6: profile derivation is a pure function of the handle (and of the
current year for the age): `derive("alex1990paris07")` yields gender "Homme",
age `current_year − 1990` and city "Paris"; male indicators are scanned first
and the female list is consulted only when no male indicator matched. -/
theorem deriveDeterministic (currentYear : Int) :
    analyzeUsername currentYear "alex1990paris07" =
      { gender := some "Homme", age := some (currentYear - 1990), city := some "Paris" } ∧
    ∀ u : String,
      ((maleIndicators.find? (fun ind => strContains (lowerStr u) ind)).isSome = true →
        genderScan u = some "Homme") ∧
      (genderScan u = some "Femme" →
        maleIndicators.find? (fun ind => strContains (lowerStr u) ind) = none ∧
        (femaleIndicators.find? (fun ind => strContains (lowerStr u) ind)).isSome = true) := by
  constructor
  · have h1 : genderScan "alex1990paris07" = some "Homme" := by decide
    have h2 : yearScan "alex1990paris07" = some 1990 := by decide
    have h3 : cityScan "alex1990paris07" = some "Paris" := by decide
    simp only [analyzeUsername, ageScan, h1, h2, h3]
    norm_num
  · intro u
    constructor
    · intro h
      unfold genderScan
      cases hf : maleIndicators.find? (fun ind => strContains (lowerStr u) ind) with
      | none => rw [hf] at h; simp at h
      | some v => rfl
    · intro h
      unfold genderScan at h
      cases hf : maleIndicators.find? (fun ind => strContains (lowerStr u) ind) with
      | some v => rw [hf] at h; simp at h
      | none =>
        rw [hf] at h
        cases hg : femaleIndicators.find? (fun ind => strContains (lowerStr u) ind) with
        | none => rw [hg] at h; simp at h
        | some w => exact ⟨rfl, rfl⟩

/-- Witness for C6 at concrete handles: the full derivation of
"alex1990paris07", a male-indicator hit ("maxime" contains "max"), and a
female-branch hit ("anna", which matches no male indicator). -/
theorem deriveDeterministic_witness :
    analyzeUsername 2025 "alex1990paris07" =
      { gender := some "Homme", age := some (2025 - 1990), city := some "Paris" } ∧
    genderScan "maxime" = some "Homme" ∧
    (maleIndicators.find? (fun ind => strContains (lowerStr "anna") ind) = none ∧
      (femaleIndicators.find? (fun ind => strContains (lowerStr "anna") ind)).isSome = true) := by
  refine ⟨(deriveDeterministic 2025).1, ?_, ?_⟩
  · exact ((deriveDeterministic 2025).2 "maxime").1 (by decide)
  · exact ((deriveDeterministic 2025).2 "anna").2 (by decide)

/-! ## C10: the age scans run over numeric ranges, not string positions -/

/-- C10: the birth-year scan checks 1980…2009 in increasing numeric order —
whenever it finds a year it is a matching year, every numerically smaller year
in range does not match (regardless of position in the handle), years ≥ 2010
are outside the scanned range, and the derived age is `current_year − year`;
when no year in 1980…2009 matches, the fallback scan checks 18…99 ascending
with the same minimality, and when both fail no age is derived. -/
theorem ageScanOrder (currentYear : Int) (u : String) :
    (∀ y, yearScan u = some y →
      1980 ≤ y ∧ y ≤ 2009 ∧ strContains u (Nat.repr y) = true ∧
      (∀ z, 1980 ≤ z → z < y → strContains u (Nat.repr z) = false) ∧
      (analyzeUsername currentYear u).age = some (currentYear - (y : Int))) ∧
    (yearScan u = none →
      (∀ z, 1980 ≤ z → z ≤ 2009 → strContains u (Nat.repr z) = false) ∧
      (∀ a, directAgeScan u = some a →
        18 ≤ a ∧ a ≤ 99 ∧ strContains u (Nat.repr a) = true ∧
        (∀ b, 18 ≤ b → b < a → strContains u (Nat.repr b) = false) ∧
        (analyzeUsername currentYear u).age = some ((a : Int))) ∧
      (directAgeScan u = none → (analyzeUsername currentYear u).age = none)) := by
  constructor
  · intro y hy
    obtain ⟨h1, h2, h3, h4⟩ := find?_natRange_some hy
    refine ⟨h1, by omega, h3, fun z hz1 hz2 => h4 z hz1 hz2, ?_⟩
    show ageScan currentYear u = _
    rw [ageScan, hy]
  · intro hn
    refine ⟨?_, ?_, ?_⟩
    · intro z hz1 hz2
      exact find?_natRange_none hn z hz1 (by omega)
    · intro a ha
      obtain ⟨h1, h2, h3, h4⟩ := find?_natRange_some ha
      refine ⟨h1, by omega, h3, fun b hb1 hb2 => h4 b hb1 hb2, ?_⟩
      show ageScan currentYear u = _
      rw [ageScan, hn, ha]
    · intro ha
      show ageScan currentYear u = _
      rw [ageScan, hn, ha]

/-- Witness for C10: in "x1999w1985" the year 1999 appears first by position
but 1985 — numerically smaller — wins, giving age `2025 − 1985 = 40`. -/
theorem ageScanOrder_witness :
    strContains "x1999w1985" (Nat.repr 1999) = true ∧
    yearScan "x1999w1985" = some 1985 ∧
    (analyzeUsername 2025 "x1999w1985").age = some 40 := by
  have h := (ageScanOrder 2025 "x1999w1985").1 1985 (by decide)
  refine ⟨by decide, by decide, ?_⟩
  rw [h.2.2.2.2]
  norm_num

/-! ## C1: the engagement trigger fires at most once per handle -/

theorem analyzedProfile_username (crit : TargetCriteria) (currentYear : Int)
    (c : AnalysisCycle) (st : Store) (u : String) :
    (analyzedProfile crit currentYear c st u).username = (getUserProfile st u).username := rfl

theorem analyzedProfile_count (crit : TargetCriteria) (currentYear : Int)
    (c : AnalysisCycle) (st : Store) (u : String) :
    (analyzedProfile crit currentYear c st u).conversation_count
      = (getUserProfile st u).conversation_count := rfl

/-- One analysis cycle's effect on a handle's persisted conversation counter:
the counter grows by exactly one when an engagement message was sent and is
unchanged otherwise, the store stays well-formed, and an engagement can only
happen from a persisted counter of zero, leaving a persisted counter of one
and a persisted targeted flag. -/
theorem analyzeUser_spec (crit : TargetCriteria) (currentYear : Int) (c : AnalysisCycle)
    (st : Store) (u : String) (hwf : storeWF st) :
    storeWF (analyzeUser crit currentYear c st u).1 ∧
    (getUserProfile (analyzeUser crit currentYear c st u).1 u).conversation_count
      = (getUserProfile st u).conversation_count
        + (if (analyzeUser crit currentYear c st u).2 then 1 else 0) ∧
    ((analyzeUser crit currentYear c st u).2 = true →
      (getUserProfile st u).conversation_count = 0 ∧
      (getUserProfile (analyzeUser crit currentYear c st u).1 u).conversation_count = 1 ∧
      (getUserProfile (analyzeUser crit currentYear c st u).1 u).targeted = true) := by
  set p3 := analyzedProfile crit currentYear c st u with hp3
  have hu3 : p3.username = u := by
    rw [hp3, analyzedProfile_username]
    exact getUserProfile_username hwf u
  have hc3 : p3.conversation_count = (getUserProfile st u).conversation_count := by
    rw [hp3, analyzedProfile_count]
  have hget1 : getUserProfile (storeSave st p3) u = p3 :=
    getUserProfile_save_key st p3 u hu3
  by_cases hb : (p3.targeted && p3.conversation_count == 0) = true
  · have hA : analyzeUser crit currentYear c st u =
        (if p3.targeted && p3.conversation_count == 0 then
          ((initiateConversation (storeSave st p3) u p3 c.connected c.choice).1,
           (initiateConversation (storeSave st p3) u p3 c.connected c.choice).2.isSome)
        else (storeSave st p3, false)) := rfl
    obtain ⟨hbt, hcount0⟩ : p3.targeted = true ∧ p3.conversation_count = 0 := by
      simpa using hb
    cases hcon : c.connected with
    | false =>
      have hI : initiateConversation (storeSave st p3) u p3 c.connected c.choice
          = (storeSave st p3, none) := by
        rw [hcon]
        rfl
      rw [hA, if_pos hb, hI]
      refine ⟨storeWF_save hwf p3, ?_, ?_⟩
      · rw [hget1]
        simp [hc3]
      · intro hfalse
        simp at hfalse
    | true =>
      have hI : initiateConversation (storeSave st p3) u p3 c.connected c.choice
          = (storeSave (storeSave st p3)
              { p3 with conversation_count := p3.conversation_count + 1 },
             some ((openingMessages u p3).getD
               (c.choice % (openingMessages u p3).length) "")) := by
        rw [hcon]
        rfl
      have hget2 : getUserProfile
          (storeSave (storeSave st p3)
            { p3 with conversation_count := p3.conversation_count + 1 }) u
          = { p3 with conversation_count := p3.conversation_count + 1 } :=
        getUserProfile_save_key (storeSave st p3)
          { p3 with conversation_count := p3.conversation_count + 1 } u hu3
      rw [hA, if_pos hb, hI]
      refine ⟨storeWF_save (storeWF_save hwf p3) _, ?_, ?_⟩
      · rw [hget2]
        simp [hc3.symm, hcount0]
      · intro _
        refine ⟨by rw [← hc3, hcount0], ?_, ?_⟩
        · rw [hget2]
          simp [hcount0]
        · rw [hget2]
          simpa using hbt
  · have hA : analyzeUser crit currentYear c st u =
        (if p3.targeted && p3.conversation_count == 0 then
          ((initiateConversation (storeSave st p3) u p3 c.connected c.choice).1,
           (initiateConversation (storeSave st p3) u p3 c.connected c.choice).2.isSome)
        else (storeSave st p3, false)) := rfl
    rw [hA, if_neg hb]
    refine ⟨storeWF_save hwf p3, ?_, ?_⟩
    · rw [hget1]
      simp [hc3]
    · intro hfalse
      simp at hfalse

/-- Along any sequence of sequential analysis cycles for one handle, the
number of engagements is bounded by one when the persisted counter starts at
zero, and by zero otherwise. -/
theorem runCycles_bound (crit : TargetCriteria) (currentYear : Int) (u : String) :
    ∀ (cycles : List AnalysisCycle) (st : Store), storeWF st →
    (runCycles crit currentYear u st cycles).2
      ≤ (if (getUserProfile st u).conversation_count = 0 then 1 else 0) := by
  intro cycles
  induction cycles with
  | nil =>
    intro st _
    exact Nat.zero_le _
  | cons c rest ih =>
    intro st hwf
    obtain ⟨hwf1, hcount, himp⟩ := analyzeUser_spec crit currentYear c st u hwf
    have hrun : runCycles crit currentYear u st (c :: rest) =
        ((runCycles crit currentYear u (analyzeUser crit currentYear c st u).1 rest).1,
         (if (analyzeUser crit currentYear c st u).2 then 1 else 0) +
           (runCycles crit currentYear u (analyzeUser crit currentYear c st u).1 rest).2) := rfl
    rw [hrun]
    have hrest := ih (analyzeUser crit currentYear c st u).1 hwf1
    cases he : (analyzeUser crit currentYear c st u).2 with
    | true =>
      obtain ⟨hpre, hpost, _⟩ := himp he
      rw [hpost] at hrest
      simp only [one_ne_zero, if_false] at hrest
      rw [if_pos hpre]
      simp only [if_true]
      omega
    | false =>
      rw [he] at hcount
      simp only [Bool.false_eq_true, if_false, Nat.add_zero] at hcount
      rw [hcount] at hrest
      simp only [Bool.false_eq_true, if_false, Nat.zero_add]
      exact hrest

/-- C1: for every handle and every well-formed starting store, any number of
sequential analysis cycles sends at most one engagement message ever; an
engagement is initiated only when the freshly analysed profile is targeted and
the persisted conversation counter is zero, and it increments the counter and
persists it (to exactly one), so a later cycle that reads the persisted
profile observes a positive counter and does not engage again. -/
theorem engagementAtMostOnce (crit : TargetCriteria) (currentYear : Int)
    (username : String) (st : Store) (hwf : storeWF st) (cycles : List AnalysisCycle) :
    (runCycles crit currentYear username st cycles).2 ≤ 1 ∧
    (∀ (st2 : Store) (c : AnalysisCycle), storeWF st2 →
      (analyzeUser crit currentYear c st2 username).2 = true →
        (getUserProfile st2 username).conversation_count = 0 ∧
        (getUserProfile (analyzeUser crit currentYear c st2 username).1
          username).conversation_count = 1 ∧
        (getUserProfile (analyzeUser crit currentYear c st2 username).1
          username).targeted = true) := by
  constructor
  · have h := runCycles_bound crit currentYear username cycles st hwf
    split at h <;> omega
  · intro st2 c h2 he
    exact (analyzeUser_spec crit currentYear c st2 username h2).2.2 he

/-- Witness for C1: two connected cycles for "alex1990paris07" (targeted under
the 18–35 / any-gender criteria) send at most one message, and the single
engagement takes the persisted counter from 0 to 1 with the targeted flag
set. -/
theorem engagementAtMostOnce_witness :
    (runCycles witnessCrit 2025 "alex1990paris07" [] [witnessCycle, witnessCycle]).2 ≤ 1 ∧
    ((getUserProfile [] "alex1990paris07").conversation_count = 0 ∧
      (getUserProfile (analyzeUser witnessCrit 2025 witnessCycle [] "alex1990paris07").1
        "alex1990paris07").conversation_count = 1 ∧
      (getUserProfile (analyzeUser witnessCrit 2025 witnessCycle [] "alex1990paris07").1
        "alex1990paris07").targeted = true) := by
  have H := engagementAtMostOnce witnessCrit 2025 "alex1990paris07" [] storeWF_nil
    [witnessCycle, witnessCycle]
  exact ⟨H.1, H.2 [] witnessCycle storeWF_nil (by decide)⟩

/-! ## C2: no duplicate dispatch while a handle is in flight -/

theorem dispatchBound_observe {u : String} (botNick : String) {st : BotState}
    (nick : String) (h : dispatchBound u st) :
    dispatchBound u (observeNick botNick st nick) := by
  unfold observeNick
  split
  · exact h
  split
  · exact h
  rename_i hbn hin
  have hadd : inflightAdd st.inflight nick = nick :: st.inflight := by
    simp [inflightAdd, hin]
  unfold dispatchBound at h ⊢
  split
  · -- room in the queue: the task is enqueued
    dsimp only
    rw [hadd, countOccur_append]
    by_cases hnu : nick = u
    · subst hnu
      rw [if_neg hin] at h
      have h1 : countOccur nick [nick] = 1 := by simp [countOccur]
      rw [h1, if_pos (List.mem_cons_self nick st.inflight)]
      omega
    · have h1 : countOccur u [nick] = 0 := by simp [countOccur, hnu]
      have h2 : (u ∈ nick :: st.inflight) ↔ u ∈ st.inflight := by
        constructor
        · intro hx
          rcases List.mem_cons.mp hx with h1x | h1x
          · exact absurd h1x.symm hnu
          · exact h1x
        · exact fun hx => List.mem_cons_of_mem _ hx
      rw [h1]
      by_cases hm : u ∈ st.inflight
      · rw [if_pos (h2.mpr hm)]
        rw [if_pos hm] at h
        omega
      · rw [if_neg (fun hx => hm (h2.mp hx))]
        rw [if_neg hm] at h
        omega
  · -- queue full: only the in-flight set grows
    dsimp only
    rw [hadd]
    have hmono : (if u ∈ st.inflight then 1 else 0)
        ≤ (if u ∈ nick :: st.inflight then 1 else 0) := by
      by_cases hm : u ∈ st.inflight
      · rw [if_pos hm, if_pos (List.mem_cons_of_mem _ hm)]
      · rw [if_neg hm]
        omega
    omega

theorem dispatchBound_namreplyLoop {u : String} (botNick : String)
    (names : List String) : ∀ st : BotState, dispatchBound u st →
    dispatchBound u (namreplyLoop botNick st names) := by
  induction names with
  | nil => intro st h; exact h
  | cons n rest ih =>
    intro st h
    unfold namreplyLoop
    split
    · exact dispatchBound_observe botNick _ h
    · exact ih _ (dispatchBound_observe botNick _ h)

theorem dispatchBound_worker {u : String} {st : BotState} (ok : Bool)
    (h : dispatchBound u st) : dispatchBound u (workerStep st ok) := by
  unfold workerStep
  split
  · exact h
  rename_i t rest htk
  unfold dispatchBound at h ⊢
  dsimp only
  rw [countOccur_append]
  by_cases htu : t = u
  · subst htu
    have h1 : countOccur t [t] = 1 := by simp [countOccur]
    rw [h1]
    have hle : (if t ∈ st.inflight then 1 else 0) ≤ 1 := by split <;> omega
    have hge : 0 ≤ (if t ∈ removeFirst st.inflight t then 1 else 0) := Nat.zero_le _
    omega
  · have h1 : countOccur u [t] = 0 := by simp [countOccur, htu]
    have h2 : (u ∈ removeFirst st.inflight t) ↔ u ∈ st.inflight :=
      mem_removeFirst_of_ne (fun he => htu he.symm)
    rw [h1]
    by_cases hm : u ∈ st.inflight
    · rw [if_pos (h2.mpr hm)]
      rw [if_pos hm] at h
      omega
    · rw [if_neg (fun hx => hm (h2.mp hx))]
      rw [if_neg hm] at h
      omega

theorem dispatchBound_step {u : String} (botNick : String) {st : BotState}
    (e : BotEvent) (h : dispatchBound u st) :
    dispatchBound u (stepEvent botNick st e) := by
  cases e with
  | namreply names => exact dispatchBound_namreplyLoop botNick _ _ h
  | join nick => exact dispatchBound_observe botNick _ h
  | worker ok => exact dispatchBound_worker ok h

theorem dispatchBound_run {u : String} (botNick : String) (evs : List BotEvent) :
    ∀ st : BotState, dispatchBound u st →
    dispatchBound u (runEvents botNick st evs) := by
  induction evs with
  | nil => intro st h; exact h
  | cons e rest ih =>
    intro st h
    exact ih _ (dispatchBound_step botNick e h)

/-- C2: starting from the initial pipeline state, for any sequence of NAMES
bursts, joins and worker rounds in which no analysis of the handle completes,
at most one task for the handle is ever admitted to the analysis queue — the
in-flight membership test guarding the enqueue makes re-dispatch impossible
while the handle is in flight. -/
theorem noDuplicateDispatch (botNick handle : String) (evs : List BotEvent)
    (h : countOccur handle (runEvents botNick initBotState evs).completedLog = 0) :
    countOccur handle (runEvents botNick initBotState evs).enqueuedLog ≤ 1 := by
  have h0 : dispatchBound handle initBotState := by
    unfold dispatchBound initBotState
    simp [countOccur]
  have hf := dispatchBound_run botNick evs initBotState h0
  unfold dispatchBound at hf
  rw [h] at hf
  split at hf <;> omega

/-- Witness for C2: "alice" observed three times (two joins and a decorated
NAMES entry) with no completed analysis is enqueued at most once. -/
theorem noDuplicateDispatch_witness :
    countOccur "alice" (runEvents "botnick" initBotState
      [BotEvent.worker true, BotEvent.join "alice", BotEvent.namreply ["@alice"],
        BotEvent.join "alice"]).enqueuedLog ≤ 1 :=
  noDuplicateDispatch "botnick" "alice"
    [BotEvent.worker true, BotEvent.join "alice", BotEvent.namreply ["@alice"],
      BotEvent.join "alice"] (by decide)

/-! ## C9: the in-flight marker can leak on queue overflow -/

theorem stuck_observe {u : String} (botNick : String) {st : BotState} (g : String)
    (h : stuckInFlight u st) : stuckInFlight u (observeNick botNick st g) := by
  unfold observeNick
  split
  · exact h
  split
  · exact h
  rename_i hbn hgin
  have hgu : g ≠ u := fun he => hgin (he ▸ h.1)
  have hadd : inflightAdd st.inflight g = g :: st.inflight := by
    simp [inflightAdd, hgin]
  unfold stuckInFlight at h ⊢
  split
  · dsimp only
    rw [hadd]
    refine ⟨List.mem_cons_of_mem _ h.1, ?_⟩
    intro hmem
    rcases List.mem_append.mp hmem with h1 | h1
    · exact h.2 h1
    · have hug : u = g := by simpa using h1
      exact hgu hug.symm
  · dsimp only
    rw [hadd]
    exact ⟨List.mem_cons_of_mem _ h.1, h.2⟩

theorem stuck_namreplyLoop {u : String} (botNick : String) (names : List String) :
    ∀ st : BotState, stuckInFlight u st →
    stuckInFlight u (namreplyLoop botNick st names) := by
  induction names with
  | nil => intro st h; exact h
  | cons n rest ih =>
    intro st h
    unfold namreplyLoop
    split
    · exact stuck_observe botNick _ h
    · exact ih _ (stuck_observe botNick _ h)

theorem stuck_worker {u : String} {st : BotState} (ok : Bool)
    (h : stuckInFlight u st) : stuckInFlight u (workerStep st ok) := by
  unfold workerStep
  split
  · exact h
  rename_i t rest htk
  unfold stuckInFlight at h ⊢
  dsimp only
  have hut : u ≠ t := by
    intro he
    exact h.2 (htk ▸ he ▸ List.mem_cons_self t rest)
  refine ⟨(mem_removeFirst_of_ne hut).mpr h.1, ?_⟩
  intro hmem
  exact h.2 (htk ▸ List.mem_cons_of_mem t hmem)

theorem stuck_run {u : String} (botNick : String) (evs : List BotEvent) :
    ∀ st : BotState, stuckInFlight u st →
    stuckInFlight u (runEvents botNick st evs) := by
  induction evs with
  | nil => intro st h; exact h
  | cons e rest ih =>
    intro st h
    refine ih _ ?_
    cases e with
    | namreply names => exact stuck_namreplyLoop botNick _ _ h
    | join nick => exact stuck_observe botNick _ h
    | worker ok => exact stuck_worker ok h

/-- C9: when a never-seen handle joins while the analysis queue is at capacity,
`on_join` adds it to the in-flight set, the `queue.Full` branch enqueues no
task (and logs only a warning), and since only a worker finishing that
handle's task could discard it, the handle remains marked in-flight after any
further sequence of events — it is left permanently in flight, contradicting
the guaranteed-release claim. -/
theorem inflightLeakOnFullQueue (botNick handle : String) (st : BotState)
    (h1 : ¬ st.tasks.length < queueMax) (h2 : handle ∉ st.inflight)
    (h3 : handle ∉ st.tasks) (h4 : handle ≠ botNick) (evs : List BotEvent) :
    handle ∈ (onJoin botNick st handle).inflight ∧
    (onJoin botNick st handle).enqueuedLog = st.enqueuedLog ∧
    (onJoin botNick st handle).tasks = st.tasks ∧
    handle ∈ (runEvents botNick (onJoin botNick st handle) evs).inflight := by
  have hadd : inflightAdd st.inflight handle = handle :: st.inflight := by
    simp [inflightAdd, h2]
  have hj : onJoin botNick st handle = { st with inflight := handle :: st.inflight } := by
    unfold onJoin observeNick
    rw [if_neg h4, if_neg h2, if_neg h1, hadd]
  rw [hj]
  refine ⟨List.mem_cons_self _ _, rfl, rfl, ?_⟩
  have hstuck : stuckInFlight handle { st with inflight := handle :: st.inflight } :=
    ⟨List.mem_cons_self _ _, h3⟩
  exact (stuck_run botNick evs _ hstuck).1

/-- Witness for C9: a queue holding fifty pending tasks, "victim" joins, no
task is admitted, and "victim" is still in flight after a worker round, a
further join and a NAMES burst re-observing it. -/
theorem inflightLeak_witness :
    "victim" ∈ (onJoin "botnick" stFull "victim").inflight ∧
    (onJoin "botnick" stFull "victim").enqueuedLog = stFull.enqueuedLog ∧
    (onJoin "botnick" stFull "victim").tasks = stFull.tasks ∧
    "victim" ∈ (runEvents "botnick" (onJoin "botnick" stFull "victim") leakEvs).inflight :=
  inflightLeakOnFullQueue "botnick" "victim" stFull (by decide) (by decide)
    (by decide) (by decide) leakEvs

end EuropTry
